import Mathlib

/-!
Verification of the chat application in `app.py`: the streaming response
accumulator `respond`, the PDF extractor `process_pdf`, and the study-plan
generator `generate_study_plan`.

The inference backend and the PDF library are external collaborators; they
are modelled as explicit parameters (a token stream with its outcome, a
page-extraction function).  Python lists of `(user, assistant)` pairs become
`List Turn`; a Python `None` assistant message becomes `Option.none`.
-/

/-- A chat message as assembled by `respond` (app.py lines 18-24).
`content` is optional because an assistant entry taken from the history can
be Python `None` (a pending turn). -/
structure Message where
  role : String
  content : Option String
deriving DecidableEq, Repr

/-- One `(user_text, assistant_text)` pair of the chat history; the
assistant text is `none` while the turn is pending. -/
abbrev Turn := String × Option String

/-- The message list built by `respond` from the system prompt, the chat
history and the new user message (app.py lines 18-24): the loop appends a
user and an assistant message per history pair, between the initial system
message and the final user message. -/
def buildMessages (systemPrompt : String) (chatHistory : List Turn)
    (message : String) : List Message :=
  ⟨"system", some systemPrompt⟩ ::
    ((chatHistory.map
        (fun t => [⟨"user", some t.1⟩, ⟨"assistant", t.2⟩])).flatten
      ++ [⟨"user", some message⟩])

/-- How the backend token stream terminates: normal exhaustion, or an
exception (with its message) raised after the listed chunks were
delivered.  A raise before the first chunk is `raised` with an empty chunk
list. -/
inductive StreamResult where
  | ended : StreamResult
  | raised : String → StreamResult
deriving DecidableEq, Repr

/-- The diagnostic string built in the `except` branch of `respond`
(app.py line 43): `f"An error occurred: {str(e)}"`. -/
def errorText (cause : String) : String := "An error occurred: " ++ cause

/-- The streaming loop of `respond` (app.py lines 29-44), returning the
list of yielded conversation snapshots.  `hist` is the local
`chat_history` after the pending turn was appended (line 26); `response`
is the accumulating buffer.  Each chunk's `delta.content` is an
`Option String`; falsy tokens (`None` or `""`) are skipped (line 37).  A
truthy token extends the buffer, overwrites the last history entry
(line 39) and yields the history (line 40).  When the stream raises, the
`except` branch appends a fresh error turn to the current history and
yields it once (lines 42-44). -/
def streamLoop (message : String) (hist : List Turn) (response : String) :
    List (Option String) → StreamResult → List (List Turn)
  | [], .ended => []
  | [], .raised cause => [hist ++ [(message, some (errorText cause))]]
  | none :: rest, res => streamLoop message hist response rest res
  | some t :: rest, res =>
      if t = "" then
        streamLoop message hist response rest res
      else
        (hist.dropLast ++ [(message, some (response ++ t))]) ::
          streamLoop message (hist.dropLast ++ [(message, some (response ++ t))])
            (response ++ t) rest res

/-- The generator `respond` (app.py lines 9-44), as the list of
conversation snapshots it yields for one exchange.  The backend call is
abstracted by the chunk contents it streams (`chunks`) and how the stream
terminates (`result`).  Line 26 rebinds `chat_history` to a fresh list
extended with the pending turn `(message, None)` before streaming starts;
the caller's own list is never mutated. -/
def respond (message : String) (chatHistory : List Turn)
    (systemPrompt : String) (chunks : List (Option String))
    (result : StreamResult) : List (List Turn) :=
  streamLoop message (chatHistory ++ [(message, none)]) "" chunks result

/-- Checks the conversation invariant claimed by the spec: every turn
before the last has a present (non-`None`) assistant text, so at most the
final turn is pending. -/
def pendingAtMostLast (c : List Turn) : Bool :=
  c.dropLast.all (fun t => t.2.isSome)

/-- Generation parameters of a chat-completion call. -/
structure ChatParams where
  maxTokens : Nat
  temperature : ℚ
  topP : ℚ
deriving DecidableEq, Repr

/-- The non-streaming backend call made by `generate_study_plan`: from the
message list and the parameters to either the response content or a raised
exception's text. -/
abbrev Backend := List Message → ChatParams → Except String String

/-- Python truthiness of a string field: non-empty. -/
def truthyText (s : String) : Bool := !(s == "")

/-- Python truthiness of the `time` field.  The Python float is modelled
as a rational (no arithmetic is performed on it); an unset field is `none`
and `0` is falsy. -/
def truthyHours : Option ℚ → Bool
  | none => false
  | some q => !(q == 0)

/-- Printed form of the `time` field inside the prompt, standing in for
Python's float interpolation (the exact numeral spelling is immaterial to
the claims). -/
def hoursText : Option ℚ → String
  | none => "None"
  | some q => toString q

/-- The prompt template of `generate_study_plan` (app.py lines 76-84),
embedding the five fields. -/
def planPrompt (topic level : String) (time : Option ℚ)
    (method goal : String) : String :=
  "Create a detailed study plan for '" ++ topic ++ "' at " ++ level ++
    " level, considering " ++ hoursText time ++ " hours per week, with '" ++
    method ++ "' as the preferred learning method. Learning goal: '" ++
    goal ++ "'. The plan should include: 1) Main learning stages " ++
    "2) Time frames for each stage " ++
    "3) Recommended materials and resources " ++
    "4) Progress assessment methods"

/-- The two-message request of `generate_study_plan` (app.py lines 86-95). -/
def planMessages (topic level : String) (time : Option ℚ)
    (method goal : String) : List Message :=
  [⟨"system", some "You are an experienced educator and methodologist"⟩,
   ⟨"user", some (planPrompt topic level time method goal)⟩]

/-- `generate_study_plan` (app.py lines 62-106): if any of the five fields
is falsy, return the fixed validation string without touching the backend;
otherwise make one non-streaming call with `max_tokens = 1024`,
`temperature = 0.7`, `top_p = 0.95` and return its content, or the
`"Error generating plan: ..."` string when it raises. -/
def generate_study_plan (backend : Backend) (topic level : String)
    (time : Option ℚ) (method goal : String) : String :=
  if truthyText topic && truthyText level && truthyHours time &&
      truthyText method && truthyText goal then
    match backend (planMessages topic level time method goal)
        ⟨1024, 7/10, 95/100⟩ with
    | .ok content => content
    | .error e => "Error generating plan: " ++ e
  else
    "Please fill in all fields."

/-- A file handle as delivered by the upload widget; `process_pdf` uses
only its `name`. -/
structure UploadedFile where
  name : String
deriving DecidableEq, Repr

/-- The page loop of `process_pdf` (app.py lines 55-57):
`text += page.extract_text() + "\n"` over the pages in order.  A page
whose extracted text is Python `None` makes the concatenation raise,
modelled by `Except.error ()`. -/
def pageConcat (acc : String) : List (Option String) → Except Unit String
  | [] => .ok acc
  | none :: _ => .error ()
  | some p :: rest => pageConcat (acc ++ p ++ "\n") rest

/-- `process_pdf` (app.py lines 46-60).  The PDF library is modelled by
`openPdf`, taking the file name to the per-page extracted texts, or to
`Except.error` with the exception text when opening raises;
`concatCause` is the runtime's exception text for concatenating a `None`
page text (the `TypeError` message). -/
def process_pdf (openPdf : String → Except String (List (Option String)))
    (concatCause : String) (file : Option UploadedFile) : String :=
  match file with
  | none => "Please upload a PDF file."
  | some f =>
    match openPdf f.name with
    | .error e => "Error processing PDF: " ++ e
    | .ok pages =>
      match pageConcat "" pages with
      | .error _ => "Error processing PDF: " ++ concatCause
      | .ok text => "PDF Content:\n" ++ text.take 1000 ++ "..."

/-- The per-turn user/assistant blocks contribute two messages per history
entry. -/
lemma historyBlocks_length (h : List Turn) :
    ((h.map
        (fun t => ([⟨"user", some t.1⟩, ⟨"assistant", t.2⟩] :
          List Message))).flatten).length = 2 * h.length := by
  induction h with
  | nil => rfl
  | cons t rest ih =>
    simp only [List.map_cons, List.flatten_cons, List.length_append,
      List.length_cons, List.length_nil, ih]
    omega

/-- C4: the message list `respond` assembles for the backend is exactly
the system message, then a user/assistant pair per prior resolved turn in
order, then the new user message, and it has length `2 * n + 2`. -/
theorem buildMessages_assembly (s m : String)
    (resolved : List (String × String)) :
    buildMessages s (resolved.map (fun p => (p.1, some p.2))) m
      = ⟨"system", some s⟩ ::
          ((resolved.map
              (fun p => [⟨"user", some p.1⟩, ⟨"assistant", some p.2⟩])).flatten
            ++ [⟨"user", some m⟩])
    ∧ (buildMessages s (resolved.map (fun p => (p.1, some p.2))) m).length
        = 2 * resolved.length + 2 := by
  constructor
  · simp only [buildMessages, List.map_map]
    rfl
  · simp only [buildMessages, List.length_cons, List.length_append,
      historyBlocks_length, List.length_map, List.length_cons,
      List.length_nil]

/-- On an exception-free stream of non-empty fragments, the streaming loop
yields one snapshot per fragment; the i-th snapshot replaces the last turn
of `hist` by the pending turn whose assistant text is the buffer extended
by the first `i + 1` fragments. -/
lemma streamLoop_ended_nonempty (m : String) (frags : List String)
    (hne : ∀ f ∈ frags, f ≠ "") :
    ∀ (hist : List Turn) (resp : String),
      streamLoop m hist resp (frags.map some) .ended
        = (List.range frags.length).map
            (fun i => hist.dropLast
              ++ [(m, some ((frags.take (i + 1)).foldl (· ++ ·) resp))]) := by
  induction frags with
  | nil => intro hist resp; rfl
  | cons f rest ih =>
    intro hist resp
    have hf : f ≠ "" := hne f (List.mem_cons_self f rest)
    have hrest : ∀ g ∈ rest, g ≠ "" :=
      fun g hg => hne g (List.mem_cons_of_mem f hg)
    simp only [List.map_cons, streamLoop, if_neg hf]
    rw [ih hrest, List.length_cons, List.range_succ_eq_map, List.map_cons,
      List.map_map]
    congr 1
    refine List.map_congr_left fun i _ => ?_
    simp [List.take_succ_cons, List.foldl_cons, List.dropLast_concat,
      Function.comp]

/-- C1: on a backend stream of `N` non-empty fragments that ends without
raising, `respond` yields exactly `N` snapshots; the `i`-th snapshot is the
input history plus one turn whose assistant text is the concatenation of
the first `i + 1` fragments, and the final snapshot's turn carries the
concatenation of all `N` fragments. -/
theorem respond_streams_accumulated (m s : String) (h : List Turn)
    (frags : List String) (hne : ∀ f ∈ frags, f ≠ "") :
    (respond m h s (frags.map some) .ended).length = frags.length ∧
    (∀ i (hi : i < (respond m h s (frags.map some) .ended).length),
      (respond m h s (frags.map some) .ended).get ⟨i, hi⟩
        = h ++ [(m, some (String.join (frags.take (i + 1))))]) ∧
    (frags ≠ [] →
      (respond m h s (frags.map some) .ended).getLast?
        = some (h ++ [(m, some (String.join frags))])) := by
  have key := streamLoop_ended_nonempty m frags hne (h ++ [(m, none)]) ""
  have hdrop : (h ++ [((m : String), (none : Option String))]).dropLast = h :=
    List.dropLast_concat
  have hjoin : ∀ l : List String, l.foldl (· ++ ·) "" = String.join l :=
    fun l => rfl
  rw [respond] at *
  rw [key]
  refine ⟨by simp, ?_, ?_⟩
  · intro i hi
    simp only [List.length_map, List.length_range] at hi
    simp [List.get_eq_getElem, List.getElem_map, List.getElem_range, hdrop,
      hjoin]
  · intro hne0
    have hpos : 0 < frags.length := List.length_pos.mpr hne0
    rw [List.getLast?_eq_getElem?]
    have hlen : ((List.range frags.length).map
        (fun i => (h ++ [((m : String), (none : Option String))]).dropLast
          ++ [(m, some ((frags.take (i + 1)).foldl (· ++ ·) ""))])).length
        = frags.length := by simp
    rw [hlen, List.getElem?_map,
      List.getElem?_range (by omega : frags.length - 1 < frags.length)]
    have harg : frags.length - 1 + 1 = frags.length := by omega
    simp [hdrop, hjoin, harg]

/-- C2 (failing input): when the backend raises before delivering any
fragment, the single snapshot `respond` yields does not set the pending
turn's assistant text to the diagnostic string; instead the `except`
branch appends a second turn carrying it, leaving the pending turn absent. -/
theorem respond_error_appends_turn :
    respond "hi" [] "sys" [] (.raised "boom")
      = [[("hi", none), ("hi", some "An error occurred: boom")]]
    ∧ respond "hi" [] "sys" [] (.raised "boom")
      ≠ [[("hi", some "An error occurred: boom")]] := by
  constructor
  · rfl
  · decide

/-- C3 (failing input): the error snapshot yielded after zero fragments
contains a turn with absent assistant text that is not the last turn, so
the at-most-last-pending conversation invariant fails on an emitted
snapshot. -/
theorem respond_error_pending_not_last :
    ∃ snap ∈ respond "hi" [] "sys" [] (.raised "boom"),
      pendingAtMostLast snap = false := by
  decide

/-- Falsy chunks (`None` or the empty string) are skipped by the streaming
loop: dropping one from the chunk list leaves the yielded snapshots
unchanged, whatever the loop state. -/
lemma streamLoop_skips_falsy (m : String) (c : Option String)
    (hc : c = none ∨ c = some "") (post : List (Option String))
    (res : StreamResult) :
    ∀ (pre : List (Option String)) (hist : List Turn) (resp : String),
      streamLoop m hist resp (pre ++ c :: post) res
        = streamLoop m hist resp (pre ++ post) res := by
  intro pre
  induction pre with
  | nil =>
    intro hist resp
    rcases hc with hc | hc <;> subst hc
    · rfl
    · simp [streamLoop]
  | cons d pre ih =>
    intro hist resp
    match d with
    | none => simpa only [List.cons_append, streamLoop] using ih hist resp
    | some t =>
      simp only [List.cons_append, streamLoop]
      by_cases ht : t = ""
      · rw [if_pos ht, if_pos ht]
        exact ih hist resp
      · rw [if_neg ht, if_neg ht]
        exact congrArg _ (ih _ _)

/-- C5: an empty or `None` token fragment produces no snapshot and no
append; the snapshots of `respond` on a stream containing such a fragment
equal those on the stream with that fragment removed. -/
theorem respond_skips_falsy_fragments (m s : String) (h : List Turn)
    (pre post : List (Option String)) (res : StreamResult)
    (c : Option String) (hc : c = none ∨ c = some "") :
    respond m h s (pre ++ c :: post) res = respond m h s (pre ++ post) res := by
  unfold respond
  exact streamLoop_skips_falsy m c hc post res pre _ _

/-- Witness for `respond_skips_falsy_fragments` at a concrete stream. -/
theorem respond_skips_falsy_fragments_witness :
    respond "m" [] "s" ([some "a"] ++ none :: [some "b"]) .ended
      = respond "m" [] "s" ([some "a"] ++ [some "b"]) .ended :=
  respond_skips_falsy_fragments "m" "s" [] [some "a"] [some "b"] .ended none
    (Or.inl rfl)

/-- Every snapshot of the streaming loop started on a history ending in a
turn for the current message keeps the preceding turns intact and only
carries extra turns for the current message. -/
lemma streamLoop_extends_base (m : String) (h : List Turn) :
    ∀ (chunks : List (Option String)) (res : StreamResult)
      (x : Option String) (resp : String),
      ∀ snap ∈ streamLoop m (h ++ [(m, x)]) resp chunks res,
        ∃ suffix, snap = h ++ suffix ∧ suffix ≠ [] ∧ ∀ t ∈ suffix, t.1 = m := by
  intro chunks
  induction chunks with
  | nil =>
    intro res x resp snap hsnap
    match res with
    | .ended => simp [streamLoop] at hsnap
    | .raised cause =>
      simp only [streamLoop, List.mem_singleton] at hsnap
      exact ⟨[(m, x), (m, some (errorText cause))], by simp [hsnap], by simp,
        by simp⟩
  | cons d rest ih =>
    intro res x resp snap hsnap
    match d with
    | none => exact ih res x resp snap hsnap
    | some t =>
      simp only [streamLoop] at hsnap
      by_cases ht : t = ""
      · rw [if_pos ht] at hsnap
        exact ih res x resp snap hsnap
      · rw [if_neg ht, List.dropLast_concat, List.mem_cons] at hsnap
        rcases hsnap with hsnap | hsnap
        · exact ⟨[(m, some (resp ++ t))], by simp [hsnap], by simp, by simp⟩
        · exact ih res (some (resp ++ t)) (resp ++ t) snap hsnap

/-- C10: `respond` never alters the turns of the history it was given: each
yielded snapshot is the input history followed by one or two turns for the
current message only (the function extends fresh copies; the caller's list
is rebound, not mutated, at line 26). -/
theorem respond_preserves_input_history (m s : String) (h : List Turn)
    (chunks : List (Option String)) (res : StreamResult) :
    ∀ snap ∈ respond m h s chunks res,
      ∃ suffix, snap = h ++ suffix ∧ suffix ≠ [] ∧ ∀ t ∈ suffix, t.1 = m := by
  intro snap hsnap
  exact streamLoop_extends_base m h chunks res none "" snap hsnap

/-- Witness for `respond_preserves_input_history` at a concrete stream. -/
theorem respond_preserves_input_history_witness :
    ∃ suffix, [("u", some "a"), ("q", some "x")]
        = [((("u" : String), (some "a" : Option String)))] ++ suffix
      ∧ suffix ≠ [] ∧ ∀ t ∈ suffix, t.1 = "q" :=
  respond_preserves_input_history "q" "s" [("u", some "a")] [some "x"] .ended
    [("u", some "a"), ("q", some "x")] (by decide)

/-- Witness for `respond_streams_accumulated` at a concrete two-fragment
stream. -/
theorem respond_streams_accumulated_witness :
    (respond "hi" [] "s" ([ "ab", "c" ].map some) .ended).length
        = [ "ab", "c" ].length ∧
    (∀ i (hi : i < (respond "hi" [] "s" ([ "ab", "c" ].map some) .ended).length),
      (respond "hi" [] "s" ([ "ab", "c" ].map some) .ended).get ⟨i, hi⟩
        = [] ++ [("hi", some (String.join ([ "ab", "c" ].take (i + 1))))]) ∧
    ([ "ab", "c" ] ≠ ([] : List String) →
      (respond "hi" [] "s" ([ "ab", "c" ].map some) .ended).getLast?
        = some ([] ++ [("hi", some (String.join [ "ab", "c" ]))])) :=
  respond_streams_accumulated "hi" "s" [] [ "ab", "c" ] (by decide)

/-- C6: when any of the five study-plan fields is empty or unset, the
result is exactly the validation string, independently of the backend (no
backend call is observable). -/
theorem generate_study_plan_missing_field (backend : Backend)
    (topic level : String) (time : Option ℚ) (method goal : String)
    (hmissing : topic = "" ∨ level = "" ∨ time = none ∨ time = some 0 ∨
      method = "" ∨ goal = "") :
    generate_study_plan backend topic level time method goal
        = "Please fill in all fields."
    ∧ ∀ b2 : Backend, generate_study_plan b2 topic level time method goal
        = "Please fill in all fields." := by
  have hcond : ∀ b2 : Backend,
      generate_study_plan b2 topic level time method goal
        = "Please fill in all fields." := by
    intro b2
    rcases hmissing with hm | hm | hm | hm | hm | hm <;>
      simp [generate_study_plan, truthyText, truthyHours, hm]
  exact ⟨hcond backend, hcond⟩

/-- Witness for `generate_study_plan_missing_field`: empty goal field. -/
theorem generate_study_plan_missing_field_witness :
    generate_study_plan (fun _ _ => Except.ok "plan") "Math" "Beginner"
        (some 5) "Visual" "" = "Please fill in all fields."
    ∧ ∀ b2 : Backend, generate_study_plan b2 "Math" "Beginner"
        (some 5) "Visual" "" = "Please fill in all fields." :=
  generate_study_plan_missing_field (fun _ _ => Except.ok "plan") "Math"
    "Beginner" (some 5) "Visual" "" (by simp)

/-- C9: `generate_study_plan` is a pure function of its input and the
backend's input-output behaviour: two backends that answer the assembled
request identically produce identical outputs, so two calls with identical
valid input against one deterministic backend coincide. -/
theorem generate_study_plan_deterministic (b1 b2 : Backend)
    (topic level : String) (time : Option ℚ) (method goal : String)
    (hagree : ∀ msgs p, b1 msgs p = b2 msgs p) :
    generate_study_plan b1 topic level time method goal
      = generate_study_plan b2 topic level time method goal := by
  unfold generate_study_plan
  rw [hagree]

/-- Witness for `generate_study_plan_deterministic` on one concrete
backend and request. -/
theorem generate_study_plan_deterministic_witness :
    generate_study_plan (fun _ _ => Except.ok "plan") "Math" "Beginner"
        (some 5) "Visual" "Pass exam"
      = generate_study_plan (fun _ _ => Except.ok "plan") "Math" "Beginner"
        (some 5) "Visual" "Pass exam" :=
  generate_study_plan_deterministic (fun _ _ => Except.ok "plan")
    (fun _ _ => Except.ok "plan") "Math" "Beginner" (some 5) "Visual"
    "Pass exam" (fun _ _ => rfl)

/-- `String.join` splits on `cons`. -/
lemma stringJoin_cons (a : String) (l : List String) :
    String.join (a :: l) = a ++ String.join l := by
  simp [String.join_eq]
  rfl

/-- The page loop on all-extractable pages returns the accumulator
followed by each page text with a newline appended after it. -/
lemma pageConcat_all_some (pages : List String) :
    ∀ acc : String,
      pageConcat acc (pages.map some)
        = .ok (acc ++ String.join (pages.map (fun p => p ++ "\n"))) := by
  induction pages with
  | nil => intro acc; simp [pageConcat, String.join]
  | cons p rest ih =>
    intro acc
    simp only [List.map_cons, pageConcat, ih, stringJoin_cons,
      String.append_assoc]

/-- C7 (counterexample): on a one-page document whose text is `"a"`, the
code yields `"PDF Content:\na\n..."` — the newline is appended after the
last page too — which differs from the claimed form built from the pages
joined with a newline separator strictly between pages. -/
theorem process_pdf_not_separator_form :
    process_pdf (fun _ => Except.ok [some "a"]) "tc" (some ⟨"doc.pdf"⟩)
        = "PDF Content:\na\n..."
    ∧ process_pdf (fun _ => Except.ok [some "a"]) "tc" (some ⟨"doc.pdf"⟩)
        ≠ "PDF Content:\n" ++ (String.intercalate "\n" ["a"]).take 1000
            ++ "..." := by
  have hval : process_pdf (fun _ => Except.ok [some "a"]) "tc"
      (some ⟨"doc.pdf"⟩)
      = "PDF Content:\n" ++ ("a\n" : String).take 1000 ++ "..." := rfl
  have htake : ("a\n" : String).take 1000 = "a\n" := by
    rw [String.take_eq]; rfl
  have htake1 : ("a" : String).take 1000 = "a" := by
    rw [String.take_eq]; rfl
  have hsep : String.intercalate "\n" ["a"] = "a" := rfl
  refine ⟨by rw [hval, htake]; rfl, ?_⟩
  rw [hval, htake, hsep, htake1]
  decide

/-- C7 (amended): on a file whose pages all extract, the result is
`"PDF Content:\n"` followed by the first 1000 characters of the page texts
each terminated by a newline (a newline after every page, the last
included), followed unconditionally by `"..."`. -/
theorem process_pdf_success_format
    (openPdf : String → Except String (List (Option String)))
    (c : String) (f : UploadedFile) (pages : List String)
    (hopen : openPdf f.name = .ok (pages.map some)) :
    process_pdf openPdf c (some f)
      = "PDF Content:\n"
        ++ (String.join (pages.map (fun p => p ++ "\n"))).take 1000
        ++ "..." := by
  simp [process_pdf, hopen, pageConcat_all_some pages ""]

/-- Witness for `process_pdf_success_format`: a short two-page document,
shorter than the truncation bound, still ends in `"..."`. -/
theorem process_pdf_success_format_witness :
    process_pdf (fun _ => Except.ok [some "ab", some "c"]) "tc"
        (some ⟨"doc.pdf"⟩)
      = "PDF Content:\n"
        ++ (String.join (["ab", "c"].map (fun p => p ++ "\n"))).take 1000
        ++ "..." :=
  process_pdf_success_format (fun _ => Except.ok [some "ab", some "c"])
    "tc" ⟨"doc.pdf"⟩ ["ab", "c"] rfl

/-- The page loop raises as soon as a page's extracted text is `None`. -/
lemma pageConcat_none_page (pre : List String)
    (rest : List (Option String)) :
    ∀ acc : String,
      pageConcat acc (pre.map some ++ none :: rest) = .error () := by
  induction pre with
  | nil => intro acc; rfl
  | cons p pre ih => intro acc; simpa [pageConcat] using ih _

/-- C8: a `None` file yields the upload prompt without touching the PDF
library; when opening raises, the exception text is wrapped in
`"Error processing PDF: "`; and a page whose extracted text is `None`
makes the concatenation raise, likewise caught and wrapped rather than
propagated. -/
theorem process_pdf_error_handling :
    (∀ (openPdf : String → Except String (List (Option String)))
        (c : String), process_pdf openPdf c none = "Please upload a PDF file.")
    ∧ (∀ (openPdf : String → Except String (List (Option String)))
        (c e : String) (f : UploadedFile),
        openPdf f.name = Except.error e →
        process_pdf openPdf c (some f) = "Error processing PDF: " ++ e)
    ∧ (∀ (openPdf : String → Except String (List (Option String)))
        (c : String) (f : UploadedFile) (pre : List String)
        (rest : List (Option String)),
        openPdf f.name = Except.ok (pre.map some ++ none :: rest) →
        process_pdf openPdf c (some f) = "Error processing PDF: " ++ c) := by
  refine ⟨fun _ _ => rfl, fun openPdf c e f hopen => ?_, 
    fun openPdf c f pre rest hopen => ?_⟩
  · simp [process_pdf, hopen]
  · simp [process_pdf, hopen, pageConcat_none_page pre rest ""]

/-- Witness for `process_pdf_error_handling` at concrete files: a missing
file, an unreadable file, and a document whose second page has no
extractable text. -/
theorem process_pdf_error_handling_witness :
    process_pdf (fun _ => Except.ok []) "tc" none = "Please upload a PDF file."
    ∧ process_pdf (fun _ => Except.error "bad header") "tc" (some ⟨"x.pdf"⟩)
        = "Error processing PDF: " ++ "bad header"
    ∧ process_pdf (fun _ => Except.ok ([some "a", none])) "tc"
        (some ⟨"x.pdf"⟩) = "Error processing PDF: " ++ "tc" :=
  ⟨process_pdf_error_handling.1 (fun _ => Except.ok []) "tc",
   process_pdf_error_handling.2.1 (fun _ => Except.error "bad header") "tc"
     "bad header" ⟨"x.pdf"⟩ rfl,
   process_pdf_error_handling.2.2 (fun _ => Except.ok ([some "a", none]))
     "tc" ⟨"x.pdf"⟩ ["a"] [] rfl⟩
